import Mathlib

/-!
Verification of the notion-write agent-system core: the knowledge index
(RAG system), the agent orchestrator, and the task-execution agent base.
Definitions are shallow embeddings of the TypeScript source
(src/rag-system.ts, src/agent-manager.ts, src/agents/base-agent.ts,
src/agents/content-research-agent.ts, src/agents/task-planning-agent.ts).
External collaborators (OpenAI, ChromaDB, web search, Notion) appear as
parameters or as models of their documented contracts, each marked in its
doc comment.  Machine floats are modelled as rationals; timestamps and
opaque metadata records that no verified property inspects are elided.
-/

/-! ## JavaScript string primitives used by the source -/

/-- Boolean prefix test on character lists (pure model of string matching). -/
def listIsPrefixOf : List Char → List Char → Bool
  | [], _ => true
  | _ :: _, [] => false
  | a :: as, b :: bs => a == b && listIsPrefixOf as bs

/-- Boolean infix test on character lists: `listIsInfixOf pat s` is
JavaScript `s.includes(pat)` for non-empty `pat`. -/
def listIsInfixOf (pat : List Char) : List Char → Bool
  | [] => listIsPrefixOf pat []
  | b :: bs => listIsPrefixOf pat (b :: bs) || listIsInfixOf pat bs

/-- JavaScript `message.toLowerCase()`, as a character list (the source only
lower-cases ASCII trigger phrases). -/
def jsToLower (s : String) : List Char := s.data.map Char.toLower

/-- JavaScript `s.includes(pat)` on an already lower-cased character list. -/
def jsIncludes (s : List Char) (pat : String) : Bool := listIsInfixOf pat.data s

/-- JavaScript `String.prototype.trim()` on a character list. -/
def trimList (cs : List Char) : List Char :=
  ((cs.dropWhile Char.isWhitespace).reverse.dropWhile Char.isWhitespace).reverse

/-- Index of the first occurrence of `c` (JavaScript `indexOf`, `none` for -1). -/
def firstIdx (c : Char) : List Char → Option Nat
  | [] => none
  | x :: xs => if x = c then some 0 else (firstIdx c xs).map (· + 1)

/-- Index of the last occurrence of `c` (JavaScript `lastIndexOf`, `none` for -1). -/
def lastIdx (c : Char) (cs : List Char) : Option Nat :=
  (firstIdx c cs.reverse).map (fun i => cs.length - 1 - i)

/-! ## Data model (src/types.ts) -/

/-- Role of a chat message (`'user' | 'assistant' | 'system'`). -/
inductive MsgRole where
  | user
  | assistant
  | system
deriving DecidableEq, Repr

/-- `ChatMessage` from src/types.ts.  The `timestamp : Date` and the opaque
`metadata` record are elided: no verified property inspects them. -/
structure ChatMessage where
  role : MsgRole
  content : String
deriving DecidableEq, Repr

/-- `AgentContext` from src/types.ts (the ConversationContext).  The opaque
`sessionData` record is elided: no verified property inspects it. -/
structure AgentContext where
  conversationId : String
  userId : Option String := none
  previousMessages : List ChatMessage := []
deriving DecidableEq, Repr

/-- The closed `AgentType` string union from src/types.ts. -/
inductive AgentType where
  | contentResearch
  | notionIntelligence
  | contentEnhancement
  | databaseArchitect
  | taskPlanning
  | analytics
deriving DecidableEq, Repr

/-- The literal string of each `AgentType` member (used in error messages). -/
def AgentType.name : AgentType → String
  | .contentResearch => "content-research"
  | .notionIntelligence => "notion-intelligence"
  | .contentEnhancement => "content-enhancement"
  | .databaseArchitect => "database-architect"
  | .taskPlanning => "task-planning"
  | .analytics => "analytics"

/-! ## BaseAgent.addToConversation (src/agents/base-agent.ts lines 173-190) -/

/-- `BaseAgent.addToConversation`: push the message, then keep only the last
20 entries (`slice(-20)`) when the length exceeds 20. -/
def addToConversation (context : AgentContext) (role : MsgRole) (content : String) :
    AgentContext :=
  let msgs := context.previousMessages ++ [{ role := role, content := content }]
  { context with
    previousMessages := if msgs.length > 20 then msgs.drop (msgs.length - 20) else msgs }

/-! ## AgentManager.determineBestAgent (src/agent-manager.ts lines 189-219) -/

/-- `AgentManager.determineBestAgent`: lower-case the message and walk a fixed
chain of `includes` tests, first match wins, default `content-research`.
The unused `context` parameter of the source is dropped (the body never
reads it). -/
def determineBestAgent (message : String) : AgentType :=
  let lowerMessage := jsToLower message
  if jsIncludes lowerMessage "research" || jsIncludes lowerMessage "information" ||
      jsIncludes lowerMessage "learn about" then .contentResearch
  else if jsIncludes lowerMessage "plan" || jsIncludes lowerMessage "project" ||
      jsIncludes lowerMessage "tasks" || jsIncludes lowerMessage "timeline" then .taskPlanning
  else if jsIncludes lowerMessage "search" || jsIncludes lowerMessage "find" ||
      jsIncludes lowerMessage "show me" then .notionIntelligence
  else if jsIncludes lowerMessage "improve" || jsIncludes lowerMessage "enhance" ||
      jsIncludes lowerMessage "better" then .contentEnhancement
  else if jsIncludes lowerMessage "database" || jsIncludes lowerMessage "structure" ||
      jsIncludes lowerMessage "organize" then .databaseArchitect
  else if jsIncludes lowerMessage "analytics" || jsIncludes lowerMessage "insights" ||
      jsIncludes lowerMessage "trends" then .analytics
  else .contentResearch

/-- The spec side of claim C8: the routing rules as an ordered
trigger-phrase table. -/
def triggerTable : List (List String × AgentType) :=
  [ (["research", "information", "learn about"], .contentResearch),
    (["plan", "project", "tasks", "timeline"], .taskPlanning),
    (["search", "find", "show me"], .notionIntelligence),
    (["improve", "enhance", "better"], .contentEnhancement),
    (["database", "structure", "organize"], .databaseArchitect),
    (["analytics", "insights", "trends"], .analytics) ]

/-- The spec side of claim C8: first matching row of the ordered table wins,
no match defaults to `content-research`. -/
def routeByTable (message : String) : AgentType :=
  let lower := jsToLower message
  match triggerTable.find? (fun row => row.1.any (fun p => jsIncludes lower p)) with
  | some row => row.2
  | none => .contentResearch

/-! ## Knowledge index (src/rag-system.ts) -/

/-- Source tag of a search result (`'notion' | 'web' | 'document'`). -/
inductive SourceKind where
  | notion
  | web
  | document
deriving DecidableEq, Repr

/-- A raw hit returned by the Vector Store query, as consumed by
`searchKnowledge`: id, document text, the `metadata.source` string, and the
reported distance (floats modelled as rationals). -/
structure RawHit where
  id : String
  content : String
  sourceField : String
  distance : ℚ
deriving DecidableEq, Repr

/-- `VectorSearchResult` from src/types.ts.  The metadata record is elided
except for the `source` tag, which is the only field the core inspects. -/
structure VectorSearchResult where
  id : String
  content : String
  score : ℚ
  source : SourceKind
deriving DecidableEq, Repr

/-- `RAGSystem.searchKnowledge` result mapping (src/rag-system.ts lines
131-154): each raw hit with truthy id and content becomes a result with
`score = 1 - distance`; a `metadata.source` outside the three known tags
falls back to `document`.  The embedding call and the Vector Store query
are external; their output is the `hits` parameter. -/
def searchKnowledge (hits : List RawHit) : List VectorSearchResult :=
  hits.filterMap (fun h =>
    if h.id ≠ "" ∧ h.content ≠ "" then
      some { id := h.id
             content := h.content
             score := 1 - h.distance
             source :=
               if h.sourceField = "notion" then .notion
               else if h.sourceField = "web" then .web
               else if h.sourceField = "document" then .document
               else .document }
    else none)

/-- A Notion page as returned by `searchPages` (id, title, lastEdited). -/
structure NotionPage where
  id : String
  title : String
  lastEdited : String
deriving DecidableEq, Repr

/-- A content block of a page: `paragraph` holds the `plain_text` pieces of
`rich_text` when the block is a paragraph block with rich text, `none`
otherwise (non-paragraph blocks contribute the empty string). -/
structure NotionBlock where
  paragraph : Option (List String)
deriving DecidableEq, Repr

/-- Text of one block (src/rag-system.ts lines 70-75): join the
`plain_text` pieces with the empty separator, the empty string otherwise. -/
def blockText (b : NotionBlock) : String :=
  match b.paragraph with
  | some ts => String.join ts
  | none => ""

/-- Text extraction of `indexNotionWorkspace` (src/rag-system.ts lines
69-77): map blocks to text, keep the non-empty pieces, join with newline. -/
def extractText (blocks : List NotionBlock) : String :=
  String.intercalate "\n" ((blocks.map blockText).filter (fun t => t.length > 0))

/-- A `KnowledgeDocument` stored in the collection: derived id, full text,
embedding, and the metadata fields built at src/rag-system.ts lines 88-94. -/
structure KnowledgeDoc where
  id : String
  content : String
  embedding : List ℚ
  pageId : String
  title : String
  lastEdited : String
deriving DecidableEq, Repr

/-- The documents computed by one `indexNotionWorkspace` run
(src/rag-system.ts lines 63-100): per page, extract the text; a page with
empty text is skipped; otherwise embed `title ++ "\n\n" ++ text` and keep
the page only when the embedding is non-empty; the stored id is
`"notion_" ++ page.id`.  `getContent` models `getPageContent` and `embed`
models `generateEmbedding` (external calls; a per-page thrown failure is
skipped by the source just as an empty embedding is, so failures are
modelled as empty embeddings). -/
def indexPage (getContent : String → List NotionBlock) (embed : String → List ℚ)
    (p : NotionPage) : Option KnowledgeDoc :=
  let textContent := extractText (getContent p.id)
  if textContent ≠ "" then
    let fullContent := p.title ++ "\n\n" ++ textContent
    let e := embed fullContent
    if e.length > 0 then
      some { id := "notion_" ++ p.id
             content := fullContent
             embedding := e
             pageId := p.id
             title := p.title
             lastEdited := p.lastEdited }
    else none
  else none

/-- The documents surviving one `indexNotionWorkspace` run: the loop of
src/rag-system.ts lines 63-100 over all pages. -/
def indexDocs (pages : List NotionPage) (getContent : String → List NotionBlock)
    (embed : String → List ℚ) : List KnowledgeDoc :=
  pages.filterMap (indexPage getContent embed)

/-- Lookup in an association list, first entry wins (keyed stores hold at
most one entry per key). -/
def lookupAssoc {α : Type} : List (String × α) → String → Option α
  | [], _ => none
  | p :: rest, k => if p.1 = k then some p.2 else lookupAssoc rest k

/-- Insert-or-replace by key: an existing entry is overwritten in place, a
new key is appended.  This is the write contract of both keyed stores the
core uses: the `activeContexts` JavaScript `Map` (`Map.set`), and —
modelled from the spec — the external Vector Store collection, whose
contract the spec states as `upsert` keyed by document id. -/
def upsertAssoc {α : Type} : List (String × α) → String → α → List (String × α)
  | [], k, v => [(k, v)]
  | p :: rest, k, v => if p.1 = k then (k, v) :: rest else p :: upsertAssoc rest k v

/-- The collection write of `indexNotionWorkspace` (src/rag-system.ts lines
102-108): store every computed document under its id. -/
def addDocuments (store : List (String × KnowledgeDoc)) (docs : List KnowledgeDoc) :
    List (String × KnowledgeDoc) :=
  docs.foldl (fun s d => upsertAssoc s d.id d) store

/-- `RAGSystem.indexNotionWorkspace` (src/rag-system.ts lines 51-115) as a
transformation of the collection: compute the surviving documents and write
each under its stable derived id. -/
def indexNotionWorkspace (store : List (String × KnowledgeDoc))
    (pages : List NotionPage) (getContent : String → List NotionBlock)
    (embed : String → List ℚ) : List (String × KnowledgeDoc) :=
  addDocuments store (indexDocs pages getContent embed)

/-- A raw web hit scraped from one DOM result node (src/rag-system.ts lines
175-178): title, snippet, url texts. -/
structure WebHit where
  title : String
  snippet : String
  url : String
deriving DecidableEq, Repr

/-- `RAGSystem.webSearch` (src/rag-system.ts lines 161-200).  The network
fetch and DOM parse are external; `provider` is their outcome.  On a thrown
provider failure the catch returns the empty list; on success the first
`limit` nodes with truthy title and snippet are mapped to results with the
constant score 0.8 and source `web`.  The `uuidv4()` id is an opaque fresh
value no claim inspects, modelled as the empty string. -/
def webSearch (provider : Except String (List WebHit)) (limit : Nat) :
    List VectorSearchResult :=
  match provider with
  | .error _ => []
  | .ok hits =>
      (hits.take limit).filterMap (fun h =>
        if h.title ≠ "" ∧ h.snippet ≠ "" then
          some { id := ""
                 content := h.title ++ "\n\n" ++ h.snippet
                 score := 0.8
                 source := .web }
        else none)

/-- One numbered section line of the context string (src/rag-system.ts
lines 215-216 and 222-223): index, truncated content, ellipsis. -/
def sectionLines (budget : Nat) (rs : List VectorSearchResult) : String :=
  String.join ((rs.mapIdx (fun i r =>
    Nat.repr (i + 1) ++ ". " ++ String.mk (r.content.data.take budget) ++ "...\n\n")))

/-- `RAGSystem.getContextForQuery` (src/rag-system.ts lines 202-232):
`notionResults` are the `searchKnowledge` results for the query (limit 5),
`webProvider` the web fetch outcome (limit 3, only consulted when
`includeWeb`); the context string opens with a fixed header, then a Notion
section (500-char budget) when non-empty, then a web section (300-char
budget) when non-empty. -/
def getContextForQuery (notionResults : List VectorSearchResult)
    (webProvider : Except String (List WebHit)) (includeWeb : Bool) :
    List VectorSearchResult × List VectorSearchResult × String :=
  let webResults := if includeWeb then webSearch webProvider 3 else []
  let context := "Based on the following information:\n\n"
    ++ (if notionResults.length > 0 then
          "From your Notion workspace:\n" ++ sectionLines 500 notionResults
        else "")
    ++ (if webResults.length > 0 then
          "From web search:\n" ++ sectionLines 300 webResults
        else "")
  (notionResults, webResults, context)

/-! ## BaseAgent.generateStructuredResponse (src/agents/base-agent.ts lines 80-143) -/

/-- The brace extraction of `generateStructuredResponse` (lines 107-113):
`jsonStart = indexOf('{')`, `jsonEnd = lastIndexOf('}') + 1`; when
`jsonStart` is not -1 and `jsonEnd > jsonStart`, keep the slice
`[jsonStart, jsonEnd)`, otherwise keep the input unchanged. -/
def extractBraces (cs : List Char) : List Char :=
  match firstIdx '{' cs, lastIdx '}' cs with
  | some s, some e => if s ≤ e then (cs.drop s).take (e + 1 - s) else cs
  | some _, none => cs
  | none, _ => cs

/-- The cleaned candidate of `generateStructuredResponse` (lines 104-113):
trim the response, then apply the brace extraction. -/
def cleanedResponse (response : String) : String :=
  String.mk (extractBraces (trimList response.data))

/-- The typed fallback object built at lines 122-127. -/
structure FallbackResponse where
  success : Bool
  message : String
  error : String
deriving DecidableEq, Repr

/-- Outcome of the structured-response path: a parsed value or the fallback
object (the source returns both through the same `T`; the sum type makes
the two cases distinguishable). -/
inductive StructuredOutcome (T : Type) where
  | parsed (v : T)
  | fallback (f : FallbackResponse)
deriving DecidableEq, Repr

/-- `BaseAgent.generateStructuredResponse` after the generation call
(lines 104-130): clean the generated `response`, attempt a parse of the
cleaned candidate only, and on parse failure return the fallback object
whose message is `cleanedResponse || response` (JavaScript: the raw text
only when the cleaned candidate is empty).  `JSON.parse` is the platform
parser, passed as the `parse` parameter; `parse = none` models a thrown
`SyntaxError`. -/
def generateStructuredResponse {T : Type} (parse : String → Option T)
    (response : String) : StructuredOutcome T :=
  let cleaned := cleanedResponse response
  match parse cleaned with
  | some v => .parsed v
  | none =>
      .fallback { success := false
                  message := if cleaned ≠ "" then cleaned else response
                  error := "Failed to parse structured response" }

/-! ## TaskPlanningAgent.validateAndEnhanceTaskBreakdown
(src/agents/task-planning-agent.ts lines 623-657) -/

/-- JavaScript `x || d` for a possibly-missing string field: `undefined`
and the empty string are falsy. -/
def jsOrString (v : Option String) (d : String) : String :=
  match v with
  | some s => if s = "" then d else s
  | none => d

/-- JavaScript `a || b` where both sides are possibly-missing strings
(`task.description || task.title`): the right side is returned as-is when
the left is falsy. -/
def jsOrStringOpt (a b : Option String) : Option String :=
  match a with
  | some s => if s = "" then b else some s
  | none => b

/-- JavaScript `x || d` for a possibly-missing number field: `undefined`
and 0 are falsy. -/
def jsOrRat (v : Option ℚ) (d : ℚ) : ℚ :=
  match v with
  | some x => if x = 0 then d else x
  | none => d

/-- A task as produced by the model before validation: every field may be
missing (`undefined` in the source). -/
structure RawTask where
  id : Option String := none
  title : Option String := none
  description : Option String := none
  priority : Option String := none
  estimatedHours : Option ℚ := none
  assignee : Option String := none
  status : Option String := none
  tags : Option (List String) := none
deriving DecidableEq, Repr

/-- A task after validation (the `Task` shape of src/types.ts; the name
avoids the Lean core `Task` type).  `description` stays optional because
the source defaults it to the raw `title`, which may itself be missing. -/
structure PlanTask where
  id : String
  title : String
  description : Option String
  priority : String
  estimatedHours : ℚ
  assignee : Option String
  status : String
  tags : List String
deriving DecidableEq, Repr

/-- `TimelineItem` from src/types.ts (dates as opaque strings). -/
structure TimelineItem where
  taskId : String
  startDate : String
  endDate : String
  milestones : List String
deriving DecidableEq, Repr

/-- `Dependency` from src/types.ts (the `type` field as its literal string). -/
structure TaskDependency where
  taskId : String
  dependsOn : List String
  kind : String
deriving DecidableEq, Repr

/-- `Resource` from src/types.ts (the `type` field as its literal string). -/
structure PlanResource where
  name : String
  kind : String
  allocation : ℚ
  availability : String
deriving DecidableEq, Repr

/-- A `TaskBreakdown` as produced by the model before validation: the title
and the three auxiliary arrays may be missing. -/
structure RawBreakdown where
  projectTitle : Option String := none
  mainTasks : List RawTask := []
  timeline : Option (List TimelineItem) := none
  dependencies : Option (List TaskDependency) := none
  resources : Option (List PlanResource) := none
deriving DecidableEq, Repr

/-- A `TaskBreakdown` after validation (src/types.ts). -/
structure TaskBreakdown where
  projectTitle : String
  mainTasks : List PlanTask
  timeline : List TimelineItem
  dependencies : List TaskDependency
  resources : List PlanResource
deriving DecidableEq, Repr

/-- The per-task repair of `validateAndEnhanceTaskBreakdown` (lines
630-639): defaulted id `task-(index+1)`, title `Task (index+1)`,
description from the raw title, priority `Medium`, estimate 8 hours,
status force-set to `Not Started`, tags defaulted to the empty array
(a present empty array is truthy in JavaScript and is kept). -/
def validateTask (index : Nat) (t : RawTask) : PlanTask :=
  { id := jsOrString t.id ("task-" ++ Nat.repr (index + 1))
    title := jsOrString t.title ("Task " ++ Nat.repr (index + 1))
    description := jsOrStringOpt t.description t.title
    priority := jsOrString t.priority "Medium"
    estimatedHours := jsOrRat t.estimatedHours 8
    assignee := t.assignee
    status := "Not Started"
    tags := t.tags.getD [] }

/-- `TaskPlanningAgent.validateAndEnhanceTaskBreakdown` (lines 623-657):
default the project title to the project description, repair every task by
position, and substitute empty arrays for missing timeline, dependencies
and resources.  `TaskPlanningAgent.execute` applies exactly this function
to every structured response before returning it (line 480). -/
def validateAndEnhanceTaskBreakdown (breakdown : RawBreakdown)
    (projectDescription : String) : TaskBreakdown :=
  { projectTitle := jsOrString breakdown.projectTitle projectDescription
    mainTasks := breakdown.mainTasks.mapIdx validateTask
    timeline := breakdown.timeline.getD []
    dependencies := breakdown.dependencies.getD []
    resources := breakdown.resources.getD [] }

/-! ## ContentResearchAgent.calculateRelevanceScore
(src/agents/content-research-agent.ts lines 199-217) -/

/-- `ContentResearchAgent.calculateRelevanceScore`: base 0.5, plus
`min(0.1 * |notion|, 0.3)`, plus `min(0.05 * |web|, 0.2)`, plus 0.3 times
the average notion score (0 when there are no notion results), capped at
1.0 — written in the accumulation order of the source. -/
def calculateRelevanceScore (notionResults webResults : List VectorSearchResult) : ℚ :=
  let score : ℚ := 0.5
  let score := score + min ((notionResults.length : ℚ) * 0.1) 0.3
  let score := score + min ((webResults.length : ℚ) * 0.05) 0.2
  let avgNotionScore : ℚ :=
    if notionResults.length > 0 then
      ((notionResults.map (fun r => r.score)).sum) / (notionResults.length : ℚ)
    else 0
  let score := score + avgNotionScore * 0.3
  min score 1.0

/-- The spec side of claim C9: the formula exactly as the spec states it,
`min(1.0, 0.5 + min(0.1·|I|, 0.3) + min(0.05·|W|, 0.2) + 0.3·avg)` with the
average indexed-hit score taken as 0 when there are no indexed hits. -/
def specRelevanceScore (indexHits webHits : List VectorSearchResult) : ℚ :=
  min 1.0 (0.5 + min (0.1 * (indexHits.length : ℚ)) 0.3
    + min (0.05 * (webHits.length : ℚ)) 0.2
    + 0.3 * (if indexHits.length > 0 then
        ((indexHits.map (fun r => r.score)).sum) / (indexHits.length : ℚ)
      else 0))

/-! ## AgentManager.chat (src/agent-manager.ts lines 89-187) -/

/-- The fixed suggestion table of `generateSuggestions` (src/agent-manager.ts
lines 237-275): a per-agent-type list, then `slice(0, 3)`. -/
def generateSuggestions (agentType : AgentType) : List String :=
  (match agentType with
   | .contentResearch =>
      ["Create a Notion page with this research",
       "Research related topics",
       "Get more detailed information",
       "Find recent updates on this topic"]
   | .taskPlanning =>
      ["Create a project database in Notion",
       "Generate timeline visualization",
       "Optimize task dependencies",
       "Estimate resource requirements"]
   | _ =>
      ["Research this topic further",
       "Create a project plan",
       "Search existing Notion pages",
       "Get recommendations"]).take 3

/-- The value returned by a successful `chat` call.  The returned `context`
reference is the stored context and is read back from the state in the
theorems, so it is not duplicated here. -/
structure ChatOutput where
  response : String
  agentUsed : AgentType
  suggestions : List String
deriving DecidableEq, Repr

/-- The `AgentManager` state: the registered agent types (the registry maps
each type to one instance; only the key set matters to the verified
properties) and the `activeContexts` table. -/
structure ManagerState where
  agents : List AgentType
  activeContexts : List (String × AgentContext)
deriving DecidableEq, Repr

/-- The agent types registered by `AgentManager.initialize`
(src/agent-manager.ts lines 27-28): only `content-research` and
`task-planning`; the four other members of `AgentType` are commented out. -/
def registeredAgents : List AgentType := [.contentResearch, .taskPlanning]

/-- `AgentManager.chat` (src/agent-manager.ts lines 89-187).  `runAgent`
models the per-agent response generation of the try block (research,
planning, or plain `generateResponse`, all external LLM calls): it receives
the selected type, the message and the context holding the just-pushed user
message, and returns the response together with the context as the agent
left it (agents mutate history only on success; every failure path throws
before touching history).  `freshId` models the `uuidv4()` of
`createContext`.  The steps in source order: resolve or create the context
(a created context is registered at once), push the user message with no
truncation (line 108), resolve the agent and fail with the
agent-not-available error when the type is unregistered (lines 117-120),
run the agent, push the assistant response with no truncation (line 163),
store the context, and return response, agent type and suggestions.  A
thrown agent failure is logged and rethrown unchanged (lines 183-186). -/
def chat (runAgent : AgentType → String → AgentContext → Except String (String × AgentContext))
    (st : ManagerState) (message : String) (conversationId : Option String)
    (preferredAgent : Option AgentType) (freshId : String) :
    Except String ChatOutput × ManagerState :=
  let found : Option AgentContext :=
    match conversationId with
    | some cid => lookupAssoc st.activeContexts cid
    | none => none
  let ctx0 : AgentContext :=
    match found with
    | some c => c
    | none => { conversationId := freshId, userId := none, previousMessages := [] }
  let ctx1 := { ctx0 with
    previousMessages := ctx0.previousMessages ++ [{ role := .user, content := message }] }
  let st1 := { st with
    activeContexts := upsertAssoc st.activeContexts ctx1.conversationId ctx1 }
  let agentType := preferredAgent.getD (determineBestAgent message)
  if agentType ∈ st.agents then
    match runAgent agentType message ctx1 with
    | .error e => (.error e, st1)
    | .ok (response, ctx2) =>
        let ctx3 := { ctx2 with
          previousMessages :=
            ctx2.previousMessages ++ [{ role := .assistant, content := response }] }
        let st2 := { st1 with
          activeContexts := upsertAssoc st1.activeContexts ctx3.conversationId ctx3 }
        (.ok { response := response
               agentUsed := agentType
               suggestions := generateSuggestions agentType }, st2)
  else
    (.error ("Agent of type \x27" ++ agentType.name ++ "\x27 not available"), st1)


/-! ## Store lemmas -/

/-- Looking up the key just upserted yields the new value. -/
theorem lookupAssoc_upsertAssoc_self {α : Type} (m : List (String × α)) (k : String)
    (v : α) : lookupAssoc (upsertAssoc m k v) k = some v := by
  induction m with
  | nil => simp [upsertAssoc, lookupAssoc]
  | cons p rest ih =>
      by_cases h : p.1 = k
      · simp [upsertAssoc, lookupAssoc, h]
      · simp [upsertAssoc, lookupAssoc, h, ih]

/-- Upserting one key leaves every other key unchanged. -/
theorem lookupAssoc_upsertAssoc_ne {α : Type} (m : List (String × α)) (k k2 : String)
    (v : α) (h : k2 ≠ k) : lookupAssoc (upsertAssoc m k v) k2 = lookupAssoc m k2 := by
  have hne : ¬ (k = k2) := fun hh => h hh.symm
  induction m with
  | nil => simp [upsertAssoc, lookupAssoc, hne]
  | cons p rest ih =>
      by_cases hp : p.1 = k
      · subst hp
        simp [upsertAssoc, lookupAssoc, hne]
      · simp [upsertAssoc, lookupAssoc, hp, ih]

/-- Upserting the value already stored under a key is a no-op. -/
theorem upsertAssoc_eq_self {α : Type} (m : List (String × α)) (k : String) (v : α)
    (h : lookupAssoc m k = some v) : upsertAssoc m k v = m := by
  induction m with
  | nil => simp [lookupAssoc] at h
  | cons p rest ih =>
      by_cases hp : p.1 = k
      · rw [lookupAssoc, if_pos hp] at h
        obtain rfl : p.2 = v := Option.some.inj h
        rw [upsertAssoc, if_pos hp, ← hp]
      · rw [lookupAssoc, if_neg hp] at h
        rw [upsertAssoc, if_neg hp, ih h]

/-- Key membership after an upsert. -/
theorem mem_keys_upsertAssoc {α : Type} (m : List (String × α)) (k : String) (v : α)
    (a : String) :
    a ∈ (upsertAssoc m k v).map Prod.fst ↔ a ∈ m.map Prod.fst ∨ a = k := by
  induction m with
  | nil => simp [upsertAssoc, eq_comm]
  | cons p rest ih =>
      by_cases hp : p.1 = k
      · subst hp
        simp only [upsertAssoc, if_true, eq_self_iff_true, ite_true, List.map_cons,
          List.mem_cons]
        tauto
      · simp only [upsertAssoc, if_neg hp, List.map_cons, List.mem_cons, ih]
        tauto

/-- An upsert preserves distinctness of the stored keys. -/
theorem nodup_keys_upsertAssoc {α : Type} (m : List (String × α)) (k : String) (v : α)
    (h : (m.map Prod.fst).Nodup) : ((upsertAssoc m k v).map Prod.fst).Nodup := by
  induction m with
  | nil => simp [upsertAssoc]
  | cons p rest ih =>
      by_cases hp : p.1 = k
      · subst hp
        simpa [upsertAssoc] using h
      · simp only [List.map_cons, List.nodup_cons] at h
        simp only [upsertAssoc, if_neg hp, List.map_cons, List.nodup_cons]
        refine ⟨?_, ih h.2⟩
        rw [mem_keys_upsertAssoc]
        rintro (hc | hc)
        · exact h.1 hc
        · exact hp hc

/-- Writing documents whose stored values are already present is a no-op. -/
theorem addDocuments_eq_self (s : List (String × KnowledgeDoc))
    (docs : List KnowledgeDoc) (h : ∀ d ∈ docs, lookupAssoc s d.id = some d) :
    addDocuments s docs = s := by
  induction docs with
  | nil => rfl
  | cons d rest ih =>
      have h1 : upsertAssoc s d.id d = s :=
        upsertAssoc_eq_self s d.id d (h d (List.mem_cons_self d rest))
      show addDocuments (upsertAssoc s d.id d) rest = s
      rw [h1]
      exact ih (fun d2 hd2 => h d2 (List.mem_cons_of_mem d hd2))

/-- A key absent from the written batch is untouched by the write. -/
theorem lookupAssoc_addDocuments_not_mem (s : List (String × KnowledgeDoc))
    (docs : List KnowledgeDoc) (k : String) (h : k ∉ docs.map KnowledgeDoc.id) :
    lookupAssoc (addDocuments s docs) k = lookupAssoc s k := by
  induction docs generalizing s with
  | nil => rfl
  | cons d rest ih =>
      simp only [List.map_cons, List.mem_cons, not_or] at h
      show lookupAssoc (addDocuments (upsertAssoc s d.id d) rest) k = _
      rw [ih (upsertAssoc s d.id d) h.2, lookupAssoc_upsertAssoc_ne s d.id k d h.1]

/-- After a batch write with distinct ids, every written document is stored
under its id. -/
theorem lookupAssoc_addDocuments (s : List (String × KnowledgeDoc))
    (docs : List KnowledgeDoc) (hd : (docs.map KnowledgeDoc.id).Nodup)
    (d : KnowledgeDoc) (hmem : d ∈ docs) :
    lookupAssoc (addDocuments s docs) d.id = some d := by
  induction docs generalizing s with
  | nil => cases hmem
  | cons d0 rest ih =>
      simp only [List.map_cons, List.nodup_cons] at hd
      rcases List.mem_cons.mp hmem with rfl | hmem2
      · show lookupAssoc (addDocuments (upsertAssoc s d.id d) rest) d.id = some d
        rw [lookupAssoc_addDocuments_not_mem (upsertAssoc s d.id d) rest d.id hd.1,
          lookupAssoc_upsertAssoc_self]
      · exact ih (upsertAssoc s d0.id d0) hd.2 hmem2

/-- A batch write preserves distinctness of the stored keys. -/
theorem nodup_keys_addDocuments (s : List (String × KnowledgeDoc))
    (docs : List KnowledgeDoc) (h : (s.map Prod.fst).Nodup) :
    ((addDocuments s docs).map Prod.fst).Nodup := by
  induction docs generalizing s with
  | nil => exact h
  | cons d rest ih =>
      exact ih (upsertAssoc s d.id d) (nodup_keys_upsertAssoc s d.id d h)

/-- Left cancellation of string append (used for the stable-id injection). -/
theorem string_append_left_cancel {s t u : String} (h : s ++ t = s ++ u) : t = u := by
  have h2 := congrArg String.data h
  simp only [String.data_append] at h2
  exact String.ext (List.append_cancel_left h2)


/-- A surviving page is stored under the stable derived id of its page. -/
theorem indexPage_id (getContent : String → List NotionBlock)
    (embed : String → List ℚ) (p : NotionPage) (d : KnowledgeDoc)
    (h : indexPage getContent embed p = some d) : d.id = "notion_" ++ p.id := by
  simp only [indexPage] at h
  split at h
  · split at h
    · obtain rfl := Option.some.inj h
      rfl
    · cases h
  · cases h

/-- Every document computed by an index run carries the stable derived id of
some enumerated page. -/
theorem indexDocs_id_shape (pages : List NotionPage)
    (getContent : String → List NotionBlock) (embed : String → List ℚ)
    (d : KnowledgeDoc) (hd : d ∈ indexDocs pages getContent embed) :
    ∃ p ∈ pages, d.id = "notion_" ++ p.id := by
  obtain ⟨p, hp, hf⟩ := List.mem_filterMap.mp hd
  exact ⟨p, hp, indexPage_id getContent embed p d hf⟩

/-- Distinct page ids yield distinct stored document ids. -/
theorem indexDocs_ids_nodup (pages : List NotionPage)
    (getContent : String → List NotionBlock) (embed : String → List ℚ)
    (hp : (pages.map NotionPage.id).Nodup) :
    ((indexDocs pages getContent embed).map KnowledgeDoc.id).Nodup := by
  have hp2 : pages.Pairwise (fun p q => p.id ≠ q.id) := List.pairwise_map.mp hp
  rw [indexDocs, List.map_filterMap]
  refine List.pairwise_filterMap.mpr (hp2.imp ?_)
  intro p q hne x hx y hy
  simp only [Option.map_eq_map, Option.mem_map] at hx hy
  obtain ⟨dx, hdx, rfl⟩ := hx
  obtain ⟨dy, hdy, rfl⟩ := hy
  rw [indexPage_id getContent embed p dx hdx, indexPage_id getContent embed q dy hdy]
  intro hc
  exact hne (string_append_left_cancel hc)

/-- Claim C2: running `indexNotionWorkspace` twice over unchanged Content
Store content produces no duplicate entries: the second run is a no-op
(idempotent upsert by id), the stored keys stay pairwise distinct, and
every surviving item is stored exactly once under its stable derived id
`"notion_" ++ page.id`.  Hypotheses: the collection held distinct keys
before the run (keyed stores hold one entry per key) and the workspace
pages carry distinct ids. -/
theorem indexNotionWorkspace_idempotent (store : List (String × KnowledgeDoc))
    (pages : List NotionPage) (getContent : String → List NotionBlock)
    (embed : String → List ℚ)
    (hs : (store.map Prod.fst).Nodup)
    (hp : (pages.map NotionPage.id).Nodup) :
    indexNotionWorkspace (indexNotionWorkspace store pages getContent embed)
        pages getContent embed
      = indexNotionWorkspace store pages getContent embed ∧
    ((indexNotionWorkspace store pages getContent embed).map Prod.fst).Nodup ∧
    ∀ d ∈ indexDocs pages getContent embed,
      lookupAssoc (indexNotionWorkspace store pages getContent embed) d.id = some d ∧
      ∃ p ∈ pages, d.id = "notion_" ++ p.id := by
  have hids := indexDocs_ids_nodup pages getContent embed hp
  have hlook : ∀ d ∈ indexDocs pages getContent embed,
      lookupAssoc (indexNotionWorkspace store pages getContent embed) d.id = some d :=
    fun d hd => lookupAssoc_addDocuments store (indexDocs pages getContent embed) hids d hd
  refine ⟨?_, ?_, ?_⟩
  · exact addDocuments_eq_self _ _ hlook
  · exact nodup_keys_addDocuments store _ hs
  · exact fun d hd => ⟨hlook d hd, indexDocs_id_shape pages getContent embed d hd⟩

/-- A one-page demonstration workspace for the C2 witness. -/
def demoPages : List NotionPage := [{ id := "p1", title := "T", lastEdited := "2024" }]

/-- Demonstration page content: one paragraph block. -/
def demoGetContent : String → List NotionBlock := fun _ => [{ paragraph := some ["hello"] }]

/-- Demonstration embedder: a constant one-dimensional embedding. -/
def demoEmbed : String → List ℚ := fun _ => [1]

/-- Witness for claim C2 at a concrete one-page workspace and empty store. -/
theorem indexNotionWorkspace_idempotent_witness :
    (([] : List (String × KnowledgeDoc)).map Prod.fst).Nodup ∧
    (demoPages.map NotionPage.id).Nodup ∧
    (indexNotionWorkspace (indexNotionWorkspace [] demoPages demoGetContent demoEmbed)
        demoPages demoGetContent demoEmbed
      = indexNotionWorkspace [] demoPages demoGetContent demoEmbed ∧
    ((indexNotionWorkspace [] demoPages demoGetContent demoEmbed).map Prod.fst).Nodup ∧
    ∀ d ∈ indexDocs demoPages demoGetContent demoEmbed,
      lookupAssoc (indexNotionWorkspace [] demoPages demoGetContent demoEmbed) d.id
        = some d ∧
      ∃ p ∈ demoPages, d.id = "notion_" ++ p.id) := by
  have h1 : (([] : List (String × KnowledgeDoc)).map Prod.fst).Nodup := by simp
  have h2 : (demoPages.map NotionPage.id).Nodup := by decide
  exact ⟨h1, h2,
    indexNotionWorkspace_idempotent [] demoPages demoGetContent demoEmbed h1 h2⟩

/-- Claim C1: under the Vector Store contract the spec states — a distance
metric bounded in [0,1] and k-NN hits returned in non-decreasing distance
order — every result of `searchKnowledge` has `score = 1 - distance` for
its originating hit, every score lies in [0,1], and the returned sequence
is non-increasing in score. -/
theorem searchKnowledge_scores (hits : List RawHit)
    (hb : ∀ h ∈ hits, 0 ≤ h.distance ∧ h.distance ≤ 1)
    (hsorted : hits.Pairwise (fun a b => a.distance ≤ b.distance)) :
    (∀ r ∈ searchKnowledge hits,
      (∃ h ∈ hits, r.score = 1 - h.distance) ∧ 0 ≤ r.score ∧ r.score ≤ 1) ∧
    (searchKnowledge hits).Pairwise (fun a b => b.score ≤ a.score) := by
  constructor
  · intro r hr
    obtain ⟨h, hmem, hf⟩ := List.mem_filterMap.mp hr
    have hscore : r.score = 1 - h.distance := by
      by_cases hc : h.id ≠ "" ∧ h.content ≠ ""
      · rw [if_pos hc] at hf
        obtain rfl := Option.some.inj hf
        rfl
      · rw [if_neg hc] at hf
        cases hf
    obtain ⟨hb1, hb2⟩ := hb h hmem
    exact ⟨⟨h, hmem, hscore⟩, by rw [hscore]; linarith, by rw [hscore]; linarith⟩
  · refine List.pairwise_filterMap.mpr (hsorted.imp ?_)
    intro a b hab x hx y hy
    simp only [Option.mem_def] at hx hy
    have hxs : x.score = 1 - a.distance := by
      by_cases hc : a.id ≠ "" ∧ a.content ≠ ""
      · rw [if_pos hc] at hx
        obtain rfl := Option.some.inj hx
        rfl
      · rw [if_neg hc] at hx
        cases hx
    have hys : y.score = 1 - b.distance := by
      by_cases hc : b.id ≠ "" ∧ b.content ≠ ""
      · rw [if_pos hc] at hy
        obtain rfl := Option.some.inj hy
        rfl
      · rw [if_neg hc] at hy
        cases hy
    rw [hxs, hys]
    linarith

/-- Two in-bound, distance-ordered hits for the C1 witness. -/
def demoHits : List RawHit :=
  [{ id := "a", content := "x", sourceField := "notion", distance := 1/4 },
   { id := "b", content := "y", sourceField := "web", distance := 1/2 }]

/-- Witness for claim C1 at two concrete in-bound ordered hits. -/
theorem searchKnowledge_scores_witness :
    (∀ h ∈ demoHits, 0 ≤ h.distance ∧ h.distance ≤ 1) ∧
    demoHits.Pairwise (fun a b => a.distance ≤ b.distance) ∧
    ((∀ r ∈ searchKnowledge demoHits,
      (∃ h ∈ demoHits, r.score = 1 - h.distance) ∧ 0 ≤ r.score ∧ r.score ≤ 1) ∧
    (searchKnowledge demoHits).Pairwise (fun a b => b.score ≤ a.score)) := by
  have h1 : ∀ h ∈ demoHits, 0 ≤ h.distance ∧ h.distance ≤ 1 := by
    intro h hh
    simp only [demoHits, List.mem_cons, List.not_mem_nil, or_false] at hh
    rcases hh with rfl | rfl <;> norm_num
  have h2 : demoHits.Pairwise (fun a b => a.distance ≤ b.distance) := by
    simp only [demoHits, List.pairwise_cons, List.mem_singleton]
    norm_num
  exact ⟨h1, h2, searchKnowledge_scores demoHits h1 h2⟩

/-- Claim C3 (amended): every `addToConversation` call leaves the history
equal to the last 20 entries of the pushed list — so at most 20 entries,
oldest dropped — but `AgentManager.chat` appends the user and the assistant
message directly to `previousMessages` without truncation (lines 108 and
163), so a chat turn on the generic path grows the stored history by two
entries whatever its length. -/
theorem addToConversation_cap_but_chat_appends :
    (∀ (ctx : AgentContext) (role : MsgRole) (content : String),
      (addToConversation ctx role content).previousMessages
        = (ctx.previousMessages
            ++ [({ role := role, content := content } : ChatMessage)]).drop
            (ctx.previousMessages.length + 1 - 20) ∧
      (addToConversation ctx role content).previousMessages.length ≤ 20) ∧
    (∀ (st : ManagerState) (message cid resp freshId : String) (ctx : AgentContext),
      lookupAssoc st.activeContexts cid = some ctx →
      ctx.conversationId = cid →
      determineBestAgent message ∈ st.agents →
      lookupAssoc
          (chat (fun _ _ c => .ok (resp, c)) st message (some cid) none
            freshId).2.activeContexts cid
        = some { ctx with previousMessages := ctx.previousMessages
            ++ [{ role := .user, content := message },
                { role := .assistant, content := resp }] }) := by
  constructor
  · intro ctx role content
    have hproj : (addToConversation ctx role content).previousMessages
        = (if (ctx.previousMessages
              ++ [({ role := role, content := content } : ChatMessage)]).length > 20
          then (ctx.previousMessages
              ++ [({ role := role, content := content } : ChatMessage)]).drop
            ((ctx.previousMessages
              ++ [({ role := role, content := content } : ChatMessage)]).length - 20)
          else ctx.previousMessages
              ++ [({ role := role, content := content } : ChatMessage)]) := rfl
    rw [hproj]
    have hlen : (ctx.previousMessages
        ++ [({ role := role, content := content } : ChatMessage)]).length
        = ctx.previousMessages.length + 1 := by simp
    by_cases h : (ctx.previousMessages
        ++ [({ role := role, content := content } : ChatMessage)]).length > 20
    · rw [if_pos h, hlen]
      refine ⟨rfl, ?_⟩
      rw [List.length_drop]
      omega
    · rw [if_neg h]
      have h0 : ctx.previousMessages.length + 1 - 20 = 0 := by omega
      refine ⟨by rw [h0, List.drop_zero], ?_⟩
      omega
  · intro st message cid resp freshId ctx hlook hid hreg
    simp only [chat, hlook, Option.getD_none, Option.getD_some, hid, if_pos hreg]
    rw [lookupAssoc_upsertAssoc_self]
    simp [List.append_assoc]

/-- A fixed single message filling the demonstration history. -/
def demoMsg : ChatMessage := { role := .user, content := "m" }

/-- A conversation context already holding 20 messages. -/
def demoCtx20 : AgentContext :=
  { conversationId := "c1", userId := none,
    previousMessages := List.replicate 20 demoMsg }

/-- A manager state after `initialize`, holding the 20-message context. -/
def demoState : ManagerState :=
  { agents := registeredAgents, activeContexts := [("c1", demoCtx20)] }

/-- The generic chat path: the agent produces a response and leaves the
history untouched (plain `generateResponse` mutates no history). -/
def demoRun : AgentType → String → AgentContext → Except String (String × AgentContext) :=
  fun _ _ c => .ok ("ok", c)

/-- Witness for claim C3 (amended) at the concrete 20-message context. -/
theorem addToConversation_cap_but_chat_appends_witness :
    lookupAssoc demoState.activeContexts "c1" = some demoCtx20 ∧
    demoCtx20.conversationId = "c1" ∧
    determineBestAgent "hello" ∈ demoState.agents ∧
    lookupAssoc
        (chat (fun _ _ c => .ok ("ok", c)) demoState "hello" (some "c1") none
          "f1").2.activeContexts "c1"
      = some { demoCtx20 with previousMessages := demoCtx20.previousMessages
          ++ [{ role := .user, content := "hello" },
              { role := .assistant, content := "ok" }] } := by
  have h1 : lookupAssoc demoState.activeContexts "c1" = some demoCtx20 := by decide
  have h2 : demoCtx20.conversationId = "c1" := by decide
  have h3 : determineBestAgent "hello" ∈ demoState.agents := by decide
  exact ⟨h1, h2, h3,
    addToConversation_cap_but_chat_appends.2 demoState "hello" "c1" "ok" "f1"
      demoCtx20 h1 h2 h3⟩

/-- Counterexample to claim C3 as stated: after one orchestrator chat turn
on a 20-message conversation, the stored history holds 22 entries — the
turn does not truncate to the most recent 20. -/
theorem chat_turn_exceeds_twenty :
    Option.map (fun c => c.previousMessages.length)
        (lookupAssoc
          (chat demoRun demoState "hello" (some "c1") none "f1").2.activeContexts "c1")
      = some 22 ∧ ¬ (22 ≤ 20) := by
  constructor
  · decide
  · omega

/-- Claim C6: when the selected agent's execution throws, `chat` propagates
the error to the caller, and the stored conversation still holds the user
message that was appended before execution — no rollback.  (Agents mutate
history only on success, so the context the failing run leaves behind is
the one holding the freshly pushed user message.) -/
theorem chat_failure_propagates (st : ManagerState) (message cid freshId e : String)
    (ctx : AgentContext) (preferred : Option AgentType)
    (runAgent : AgentType → String → AgentContext → Except String (String × AgentContext))
    (hlook : lookupAssoc st.activeContexts cid = some ctx)
    (hid : ctx.conversationId = cid)
    (hreg : preferred.getD (determineBestAgent message) ∈ st.agents)
    (hrun : runAgent (preferred.getD (determineBestAgent message)) message
        { ctx with previousMessages := ctx.previousMessages
            ++ [{ role := .user, content := message }] } = .error e) :
    (chat runAgent st message (some cid) preferred freshId).1 = .error e ∧
    lookupAssoc
        (chat runAgent st message (some cid) preferred freshId).2.activeContexts cid
      = some { ctx with previousMessages := ctx.previousMessages
          ++ [{ role := .user, content := message }] } := by
  simp only [hid] at hrun
  simp only [chat, hlook, hid, if_pos hreg, hrun]
  refine ⟨trivial, ?_⟩
  exact lookupAssoc_upsertAssoc_self _ _ _

/-- An empty registered conversation for the C6 witness. -/
def demoCtx0 : AgentContext :=
  { conversationId := "c9", userId := none, previousMessages := [] }

/-- A manager state holding the empty conversation. -/
def demoState0 : ManagerState :=
  { agents := registeredAgents, activeContexts := [("c9", demoCtx0)] }

/-- An agent whose execution always throws. -/
def demoRunFails : AgentType → String → AgentContext →
    Except String (String × AgentContext) := fun _ _ _ => .error "boom"

/-- Witness for claim C6: a concrete failing turn propagates "boom" and the
stored history keeps the pushed user message. -/
theorem chat_failure_propagates_witness :
    lookupAssoc demoState0.activeContexts "c9" = some demoCtx0 ∧
    demoCtx0.conversationId = "c9" ∧
    (none : Option AgentType).getD (determineBestAgent "hi") ∈ demoState0.agents ∧
    ((chat demoRunFails demoState0 "hi" (some "c9") none "f2").1 = .error "boom" ∧
    lookupAssoc
        (chat demoRunFails demoState0 "hi" (some "c9") none "f2").2.activeContexts "c9"
      = some { demoCtx0 with previousMessages := demoCtx0.previousMessages
          ++ [{ role := .user, content := "hi" }] }) := by
  have h1 : lookupAssoc demoState0.activeContexts "c9" = some demoCtx0 := by decide
  have h2 : demoCtx0.conversationId = "c9" := by decide
  have h3 : (none : Option AgentType).getD (determineBestAgent "hi")
      ∈ demoState0.agents := by decide
  have h4 : demoRunFails ((none : Option AgentType).getD (determineBestAgent "hi")) "hi"
      { demoCtx0 with previousMessages := demoCtx0.previousMessages
          ++ [{ role := .user, content := "hi" }] } = .error "boom" := rfl
  exact ⟨h1, h2, h3,
    chat_failure_propagates demoState0 "hi" "c9" "f2" "boom" demoCtx0 none
      demoRunFails h1 h2 h3 h4⟩

/-- Claim C10: a message matching only the later trigger rows (here "find")
routes to an agent type that `initialize` never registers, and `chat` then
throws the agent-not-available error instead of falling back to a
registered agent. -/
theorem determineBestAgent_unregistered :
    determineBestAgent "find my notes" = .notionIntelligence ∧
    AgentType.notionIntelligence ∉ registeredAgents ∧
    AgentType.contentEnhancement ∉ registeredAgents ∧
    AgentType.databaseArchitect ∉ registeredAgents ∧
    AgentType.analytics ∉ registeredAgents ∧
    (chat demoRun { agents := registeredAgents, activeContexts := [] }
        "find my notes" none none "f3").1
      = .error "Agent of type \x27notion-intelligence\x27 not available" := by
  refine ⟨by decide, by decide, by decide, by decide, by decide, ?_⟩
  rfl

/-- Claim C8: `determineBestAgent` is exactly the first-match walk of the
ordered trigger-phrase table (pure by construction: it is a function of the
message alone), and the three sample routings of the spec hold. -/
theorem determineBestAgent_table :
    (∀ message, determineBestAgent message = routeByTable message) ∧
    determineBestAgent "Research quantum computing" = .contentResearch ∧
    determineBestAgent "Plan a project timeline" = .taskPlanning ∧
    determineBestAgent "" = .contentResearch := by
  refine ⟨?_, by decide, by decide, by decide⟩
  intro message
  simp only [determineBestAgent, routeByTable, triggerTable, List.find?, List.any,
    Bool.or_false, Bool.or_assoc]
  cases h1 : (jsIncludes (jsToLower message) "research"
      || (jsIncludes (jsToLower message) "information"
      || jsIncludes (jsToLower message) "learn about")) <;>
  cases h2 : (jsIncludes (jsToLower message) "plan"
      || (jsIncludes (jsToLower message) "project"
      || (jsIncludes (jsToLower message) "tasks"
      || jsIncludes (jsToLower message) "timeline"))) <;>
  cases h3 : (jsIncludes (jsToLower message) "search"
      || (jsIncludes (jsToLower message) "find"
      || jsIncludes (jsToLower message) "show me")) <;>
  cases h4 : (jsIncludes (jsToLower message) "improve"
      || (jsIncludes (jsToLower message) "enhance"
      || jsIncludes (jsToLower message) "better")) <;>
  cases h5 : (jsIncludes (jsToLower message) "database"
      || (jsIncludes (jsToLower message) "structure"
      || jsIncludes (jsToLower message) "organize")) <;>
  cases h6 : (jsIncludes (jsToLower message) "analytics"
      || (jsIncludes (jsToLower message) "insights"
      || jsIncludes (jsToLower message) "trends")) <;>
  simp [h1, h2, h3, h4, h5, h6]

/-- Claim C9: the content-research relevance score computed by the source
equals the spec formula
`min(1.0, 0.5 + min(0.1·|I|, 0.3) + min(0.05·|W|, 0.2) + 0.3·avg)` for every
pair of result lists, with the average taken as 0 on no indexed hits. -/
theorem calculateRelevanceScore_eq_spec (notionResults webResults : List VectorSearchResult) :
    calculateRelevanceScore notionResults webResults
      = specRelevanceScore notionResults webResults := by
  simp only [calculateRelevanceScore, specRelevanceScore]
  rw [min_comm]
  congr 1
  by_cases h : notionResults.length > 0
  · rw [if_pos h]
    ring_nf
  · rw [if_neg h]
    ring_nf

/-- Claim C7: a throwing web provider yields the empty result list rather
than a propagated error; in that case `getContextForQuery` with web
augmentation returns exactly the context string of the no-web call —
built from indexed results alone — and that string is never empty; every
successful web hit is scored with the constant 0.8; and at most `limit`
web results are returned. -/
theorem webSearch_degrades (e : String) (notionResults : List VectorSearchResult)
    (hits : List WebHit) (anyProvider : Except String (List WebHit)) (limit : Nat) :
    webSearch (.error e) limit = [] ∧
    (getContextForQuery notionResults (.error e) true).2.2
      = (getContextForQuery notionResults anyProvider false).2.2 ∧
    (getContextForQuery notionResults (.error e) true).2.2 ≠ "" ∧
    (∀ r ∈ webSearch (.ok hits) limit, r.score = 0.8) ∧
    (webSearch (.ok hits) limit).length ≤ limit := by
  refine ⟨rfl, rfl, ?_, ?_, ?_⟩
  · intro hempty
    simp only [getContextForQuery] at hempty
    have hlen := congrArg String.length hempty
    simp only [String.length_append] at hlen
    have hhd : ("Based on the following information:\n\n" : String).length = 37 := by decide
    have hnil : ("" : String).length = 0 := rfl
    rw [hhd, hnil] at hlen
    omega
  · intro r hr
    simp only [webSearch] at hr
    obtain ⟨h, hmem, hf⟩ := List.mem_filterMap.mp hr
    by_cases hc : h.title ≠ "" ∧ h.snippet ≠ ""
    · rw [if_pos hc] at hf
      obtain rfl := Option.some.inj hf
      rfl
    · rw [if_neg hc] at hf
      cases hf
  · calc (webSearch (.ok hits) limit).length
        ≤ (hits.take limit).length := List.length_filterMap_le _ _
      _ ≤ limit := by
          rw [List.length_take]
          exact min_le_left _ _

/-- Claim C5: in every validated breakdown, each task missing an id gets
`task-(index+1)`, missing priority defaults to Medium, missing estimate
defaults to 8 hours, status is `Not Started` regardless of the raw status,
missing tags become the empty array, and each missing auxiliary array is
replaced by the empty array.  `TaskPlanningAgent.execute` applies this
validation to every structured response before returning it. -/
theorem validateAndEnhance_repairs (b : RawBreakdown) (pd : String) :
    ((validateAndEnhanceTaskBreakdown b pd).mainTasks.length = b.mainTasks.length) ∧
    (∀ i t, b.mainTasks[i]? = some t →
      ∃ t2, (validateAndEnhanceTaskBreakdown b pd).mainTasks[i]? = some t2 ∧
        t2.status = "Not Started" ∧
        (t.id = none → t2.id = "task-" ++ Nat.repr (i + 1)) ∧
        (t.priority = none → t2.priority = "Medium") ∧
        (t.estimatedHours = none → t2.estimatedHours = 8) ∧
        (t.tags = none → t2.tags = [])) ∧
    (b.timeline = none → (validateAndEnhanceTaskBreakdown b pd).timeline = []) ∧
    (b.dependencies = none → (validateAndEnhanceTaskBreakdown b pd).dependencies = []) ∧
    (b.resources = none → (validateAndEnhanceTaskBreakdown b pd).resources = []) := by
  refine ⟨?_, ?_, ?_, ?_, ?_⟩
  · simp [validateAndEnhanceTaskBreakdown]
  · intro i t ht
    refine ⟨validateTask i t, ?_, rfl, ?_, ?_, ?_, ?_⟩
    · show (b.mainTasks.mapIdx validateTask)[i]? = some (validateTask i t)
      rw [List.getElem?_mapIdx, ht]
      rfl
    · intro hmiss
      simp [validateTask, jsOrString, hmiss]
    · intro hmiss
      simp [validateTask, jsOrString, hmiss]
    · intro hmiss
      simp [validateTask, jsOrRat, hmiss]
    · intro hmiss
      simp [validateTask, hmiss]
  · intro hmiss
    simp [validateAndEnhanceTaskBreakdown, hmiss]
  · intro hmiss
    simp [validateAndEnhanceTaskBreakdown, hmiss]
  · intro hmiss
    simp [validateAndEnhanceTaskBreakdown, hmiss]

/-- The spec's sample raw task: no id, status Completed from the model. -/
def demoRawTask : RawTask :=
  { id := none, title := none, description := none, priority := none,
    estimatedHours := none, assignee := none, status := some "Completed",
    tags := none }

/-- A raw breakdown holding only the sample task. -/
def demoRawBreakdown : RawBreakdown :=
  { projectTitle := none, mainTasks := [demoRawTask], timeline := none,
    dependencies := none, resources := none }

/-- Witness for claim C5: the repaired sample task gets id `task-1`, status
`Not Started`, priority Medium, 8 hours, empty tags. -/
theorem validateAndEnhance_repairs_witness :
    demoRawBreakdown.mainTasks[0]? = some demoRawTask ∧
    (∃ t2, (validateAndEnhanceTaskBreakdown demoRawBreakdown "demo").mainTasks[0]?
        = some t2 ∧
      t2.status = "Not Started" ∧ t2.id = "task-1" ∧ t2.priority = "Medium" ∧
      t2.estimatedHours = 8 ∧ t2.tags = []) := by
  have h0 : demoRawBreakdown.mainTasks[0]? = some demoRawTask := rfl
  obtain ⟨t2, ha, hs, hid, hp, he, htg⟩ :=
    (validateAndEnhance_repairs demoRawBreakdown "demo").2.1 0 demoRawTask h0
  exact ⟨h0, t2, ha, hs, hid rfl, hp rfl, he rfl, htg rfl⟩

/-! ## Brace-extraction lemmas for the structured-response path -/

/-- `firstIdx` over an append whose left part misses the character. -/
theorem firstIdx_append_of_not_mem (c : Char) (pre l : List Char) (h : c ∉ pre) :
    firstIdx c (pre ++ l) = (firstIdx c l).map (fun i => pre.length + i) := by
  induction pre with
  | nil =>
      simp only [List.nil_append, List.length_nil]
      cases firstIdx c l <;> simp
  | cons a as ih =>
      simp only [List.mem_cons, not_or] at h
      rw [List.cons_append, firstIdx, if_neg (Ne.symm h.1), ih h.2]
      cases firstIdx c l <;> simp
      omega

/-- `firstIdx` at a list starting with the sought character. -/
theorem firstIdx_cons_self (c : Char) (l : List Char) :
    firstIdx c (c :: l) = some 0 := by
  rw [firstIdx, if_pos rfl]

/-- `dropWhile` is the identity when the head fails the predicate. -/
theorem dropWhile_eq_self_of_head (p : Char → Bool) (l : List Char)
    (h : ∀ x, l.head? = some x → p x = false) : l.dropWhile p = l := by
  cases l with
  | nil => rfl
  | cons a as => rw [List.dropWhile_cons, h a rfl]; simp

/-- The brace extraction on prose-wrapped JSON: with no opening brace in
the leading prose and no closing brace in the trailing prose, exactly the
brace-delimited block survives. -/
theorem extractBraces_sandwich (pre mid post : List Char)
    (hpre : '{' ∉ pre) (hpost : '}' ∉ post) :
    extractBraces (pre ++ ('{' :: mid ++ ['}']) ++ post) = '{' :: mid ++ ['}'] := by
  have hfirst : firstIdx '{' (pre ++ ('{' :: mid ++ ['}']) ++ post) = some pre.length := by
    rw [List.append_assoc, firstIdx_append_of_not_mem '{' pre _ hpre, List.cons_append,
      List.cons_append, firstIdx_cons_self]
    simp
  have hlast : lastIdx '}' (pre ++ ('{' :: mid ++ ['}']) ++ post)
      = some (pre.length + mid.length + 1) := by
    have hrev : (pre ++ ('{' :: mid ++ ['}']) ++ post).reverse
        = post.reverse ++ ('}' :: (mid.reverse ++ ('{' :: pre.reverse))) := by
      simp
    have hpost2 : '}' ∉ post.reverse := by simpa using hpost
    simp only [lastIdx, hrev,
      firstIdx_append_of_not_mem '}' post.reverse _ hpost2, firstIdx_cons_self]
    simp only [Option.map_map, Option.map_some']
    simp only [List.length_append, List.length_cons, List.length_reverse,
      List.length_nil]
    congr 1
    omega
  simp only [extractBraces, hfirst, hlast]
  rw [if_pos (by omega)]
  have hdrop : (pre ++ ('{' :: mid ++ ['}']) ++ post).drop pre.length
      = ('{' :: mid ++ ['}']) ++ post := by
    rw [List.append_assoc]
    exact List.drop_left _ _
  rw [hdrop]
  have harith : pre.length + mid.length + 1 + 1 - pre.length = mid.length + 2 := by omega
  rw [harith]
  have hlen : ('{' :: mid ++ ['}']).length = mid.length + 2 := by simp
  rw [← hlen, List.take_left]

/-- The head of a list is a member. -/
theorem mem_of_head_eq (l : List Char) (x : Char) (h : l.head? = some x) : x ∈ l := by
  cases l with
  | nil => cases h
  | cons a t =>
      obtain rfl : a = x := Option.some.inj h
      exact List.mem_cons_self a t

/-- Trimming prose-wrapped JSON is the identity when the prose holds no
whitespace at the string's two ends. -/
theorem trimList_sandwich (pre mid post : List Char)
    (hpre : ∀ x ∈ pre, x.isWhitespace = false)
    (hpost : ∀ x ∈ post, x.isWhitespace = false) :
    trimList (pre ++ ('{' :: mid ++ ['}']) ++ post)
      = pre ++ ('{' :: mid ++ ['}']) ++ post := by
  have hfront : (pre ++ ('{' :: mid ++ ['}']) ++ post).dropWhile Char.isWhitespace
      = pre ++ ('{' :: mid ++ ['}']) ++ post := by
    apply dropWhile_eq_self_of_head
    intro x hx
    cases pre with
    | nil =>
        simp only [List.nil_append] at hx
        rw [List.head?_append_of_ne_nil _ (by simp)] at hx
        rw [List.head?_append_of_ne_nil _ (by simp)] at hx
        obtain rfl : '{' = x := Option.some.inj hx
        decide
    | cons a as =>
        rw [List.head?_append_of_ne_nil _ (by simp)] at hx
        rw [List.head?_append_of_ne_nil _ (by simp)] at hx
        obtain rfl : a = x := Option.some.inj hx
        exact hpre a (List.mem_cons_self a as)
  have hback : ((pre ++ ('{' :: mid ++ ['}']) ++ post).reverse).dropWhile Char.isWhitespace
      = (pre ++ ('{' :: mid ++ ['}']) ++ post).reverse := by
    apply dropWhile_eq_self_of_head
    intro x hx
    have hrev : (pre ++ ('{' :: mid ++ ['}']) ++ post).reverse
        = post.reverse ++ ('}' :: (mid.reverse ++ ('{' :: pre.reverse))) := by
      simp
    rw [hrev] at hx
    cases hp : post with
    | nil =>
        subst hp
        simp only [List.reverse_nil, List.nil_append] at hx
        obtain rfl : '}' = x := Option.some.inj hx
        decide
    | cons b bs =>
        rw [List.head?_append_of_ne_nil _ (by simp [hp])] at hx
        have hx2 : x ∈ post.reverse := mem_of_head_eq _ _ hx
        exact hpost x (List.mem_reverse.mp hx2)
  rw [trimList, hfront, hback, List.reverse_reverse]

/-- Claim C4 (amended): for a generated response of prose-wrapped JSON —
no `{` in the leading prose, no `}` in the trailing prose, no whitespace in
either (trimming strips end whitespace first) — the structured-response
path parses exactly the substring from the first `{` to the last `}`; a
successful parse returns the parsed value, and a parse failure returns the
typed fallback `{success := false, message, error}` without throwing, where
`message` carries the extracted candidate (the source stores
`cleanedResponse || response`, the raw text only when the candidate is
empty), not the raw response text. -/
theorem generateStructuredResponse_extracts {T : Type} (parse : String → Option T)
    (pre mid post : List Char)
    (hpre1 : '{' ∉ pre) (hpre2 : ∀ x ∈ pre, x.isWhitespace = false)
    (hpost1 : '}' ∉ post) (hpost2 : ∀ x ∈ post, x.isWhitespace = false) :
    cleanedResponse (String.mk (pre ++ ('{' :: mid ++ ['}']) ++ post))
      = String.mk ('{' :: mid ++ ['}']) ∧
    (∀ v, parse (String.mk ('{' :: mid ++ ['}'])) = some v →
      generateStructuredResponse parse (String.mk (pre ++ ('{' :: mid ++ ['}']) ++ post))
        = .parsed v) ∧
    (parse (String.mk ('{' :: mid ++ ['}'])) = none →
      generateStructuredResponse parse (String.mk (pre ++ ('{' :: mid ++ ['}']) ++ post))
        = .fallback ⟨false, String.mk ('{' :: mid ++ ['}']),
            "Failed to parse structured response"⟩) := by
  have hclean : cleanedResponse (String.mk (pre ++ ('{' :: mid ++ ['}']) ++ post))
      = String.mk ('{' :: mid ++ ['}']) := by
    show String.mk (extractBraces (trimList (pre ++ ('{' :: mid ++ ['}']) ++ post))) = _
    rw [trimList_sandwich pre mid post hpre2 hpost2,
      extractBraces_sandwich pre mid post hpre1 hpost1]
  have hne : String.mk ('{' :: mid ++ ['}']) ≠ "" := by
    intro h
    cases congrArg String.data h
  refine ⟨hclean, ?_, ?_⟩
  · intro v hv
    simp only [generateStructuredResponse, hclean, hv]
  · intro hv
    simp only [generateStructuredResponse, hclean, hv, if_pos hne]

/-- A concrete parser for the C4 witness: accepts exactly the JSON
candidate the sandwich response contains. -/
def demoParse : String → Option Nat :=
  fun s => if s = "\x7b\x22a\x22:1\x7d" then some 1 else none

/-- Witness for claim C4 (amended) at a concrete prose-wrapped response. -/
theorem generateStructuredResponse_extracts_witness :
    ('{' ∉ "prose:".data) ∧ (∀ x ∈ "prose:".data, x.isWhitespace = false) ∧
    ('}' ∉ ";done".data) ∧ (∀ x ∈ ";done".data, x.isWhitespace = false) ∧
    (cleanedResponse
        (String.mk ("prose:".data ++ ('{' :: "\x22a\x22:1".data ++ ['}']) ++ ";done".data))
      = String.mk ('{' :: "\x22a\x22:1".data ++ ['}']) ∧
    (∀ v, demoParse (String.mk ('{' :: "\x22a\x22:1".data ++ ['}'])) = some v →
      generateStructuredResponse demoParse
          (String.mk ("prose:".data ++ ('{' :: "\x22a\x22:1".data ++ ['}']) ++ ";done".data))
        = .parsed v) ∧
    (demoParse (String.mk ('{' :: "\x22a\x22:1".data ++ ['}'])) = none →
      generateStructuredResponse demoParse
          (String.mk ("prose:".data ++ ('{' :: "\x22a\x22:1".data ++ ['}']) ++ ";done".data))
        = .fallback ⟨false, String.mk ('{' :: "\x22a\x22:1".data ++ ['}']),
            "Failed to parse structured response"⟩)) := by
  have h1 : '{' ∉ "prose:".data := by decide
  have h2 : ∀ x ∈ "prose:".data, x.isWhitespace = false := by decide
  have h3 : '}' ∉ ";done".data := by decide
  have h4 : ∀ x ∈ ";done".data, x.isWhitespace = false := by decide
  exact ⟨h1, h2, h3, h4,
    generateStructuredResponse_extracts demoParse "prose:".data "\x22a\x22:1".data
      ";done".data h1 h2 h3 h4⟩

/-- Modelled from the spec: `JSON.parse` is the platform parser absent from
the repository; on the malformed candidate `\x7boops\x7d` (not valid JSON)
it throws a `SyntaxError`, modelled as a parse returning `none`.  The
counterexample evaluates it only on that candidate. -/
def jsonParseFails : String → Option Nat := fun _ => none

/-- Counterexample to claim C4 as stated: on a parse failure after brace
extraction the fallback message is the extracted candidate, not the raw
response text. -/
theorem generateStructuredResponse_message_not_raw :
    generateStructuredResponse jsonParseFails "x: \x7boops\x7d."
      = .fallback ⟨false, "\x7boops\x7d", "Failed to parse structured response"⟩ ∧
    ("\x7boops\x7d" : String) ≠ "x: \x7boops\x7d." := by
  constructor
  · decide
  · decide

/-- Witness for claim C7 at concrete inputs: a failing provider, one
indexed result, one well-formed web hit. -/
theorem webSearch_degrades_witness :
    webSearch (.error "net down") 3 = [] ∧
    (getContextForQuery [{ id := "a", content := "x", score := 1, source := .notion }]
        (.error "net down") true).2.2
      = (getContextForQuery [{ id := "a", content := "x", score := 1, source := .notion }]
        (.ok [{ title := "t", snippet := "s", url := "u" }]) false).2.2 ∧
    (getContextForQuery [{ id := "a", content := "x", score := 1, source := .notion }]
        (.error "net down") true).2.2 ≠ "" ∧
    (∀ r ∈ webSearch (.ok [{ title := "t", snippet := "s", url := "u" }]) 3,
      r.score = 0.8) ∧
    (webSearch (.ok [{ title := "t", snippet := "s", url := "u" }]) 3).length ≤ 3 :=
  webSearch_degrades "net down"
    [{ id := "a", content := "x", score := 1, source := .notion }]
    [{ title := "t", snippet := "s", url := "u" }]
    (.ok [{ title := "t", snippet := "s", url := "u" }]) 3
